import Mathlib

/-!
Verification of the emul8rs CHIP-8 interpreter core.

This file gives a shallow embedding, in Lean, of the interpreter engine of the
emul8rs repository (src/emulator.rs, src/display.rs, src/config.rs) and proves
or refutes the frozen claims about it.

Modelling conventions:
- machine integers (u8, u16, usize) are modelled as Nat, with explicit
  reductions mod 256 or mod 65536 exactly where the Rust code wraps;
- fallible Rust functions returning anyhow Result are modelled with Option
  (none is an error); where the Rust code mutates through a mutable reference
  and an error leaves the mutations behind, the model returns the mutated
  state together with a success flag (load_bytes);
- the frontend trait is modelled by the data the engine reads from it: a pure
  key map for check_key; the draw, sound and step calls have no effect on the
  engine state, and the sound-transition block of the run loop is modelled as
  a pure function from the observed sound timer and the playing_sound flag to
  the list of emitted frontend sound calls;
- the two timer cells are modelled as plain Nat fields of the state (the view
  of the instruction-execution domain); the background decrement thread is
  outside the claims settled here;
- the rng draw of opcode CXNN is passed in as an explicit argument standing
  for the u32 returned by next_u32.
-/

set_option maxRecDepth 4000

namespace Emul8rs

/- Constants from src/emulator.rs. -/

def MAX_STACK_SIZE : Nat := 128
def MEMORY_SIZE : Nat := 4096
def NUM_REGISTERS : Nat := 16
def GAME_MEMORY_START : Nat := 0x200
def INSTRUCTION_LENGTH : Nat := 2
def SPRITE_WIDTH : Nat := 8
def FONT_START_POSITION : Nat := 0x50
def FONT_HEIGHT : Nat := 5

/- Constants from src/display.rs. -/

def DISPLAY_ROWS : Nat := 32
def DISPLAY_COLS : Nat := 64
def COL_STRIDE : Nat := 1
def ROW_STRIDE : Nat := DISPLAY_COLS

/-- FONT, the 16 five-byte hexadecimal glyphs from src/emulator.rs. -/
def FONT : List Nat := [
  0xF0, 0x90, 0x90, 0x90, 0xF0,
  0x20, 0x60, 0x20, 0x20, 0x70,
  0xF0, 0x10, 0xF0, 0x80, 0xF0,
  0xF0, 0x10, 0xF0, 0x10, 0xF0,
  0x90, 0x90, 0xF0, 0x10, 0x10,
  0xF0, 0x80, 0xF0, 0x10, 0xF0,
  0xF0, 0x80, 0xF0, 0x90, 0xF0,
  0xF0, 0x10, 0x20, 0x40, 0x40,
  0xF0, 0x90, 0xF0, 0x90, 0xF0,
  0xF0, 0x90, 0xF0, 0x10, 0xF0,
  0xF0, 0x90, 0xF0, 0x90, 0x90,
  0xE0, 0x90, 0xE0, 0x90, 0xE0,
  0xF0, 0x80, 0x80, 0x80, 0xF0,
  0xE0, 0x90, 0x90, 0x90, 0xE0,
  0xF0, 0x80, 0xF0, 0x80, 0xF0,
  0xF0, 0x80, 0xF0, 0x80, 0x80]

/-- Display from src/display.rs: a row-major boolean matrix (a flat array of
DISPLAY_ROWS * DISPLAY_COLS cells) plus the dirty flag. -/
structure Display where
  data : Fin (DISPLAY_ROWS * DISPLAY_COLS) → Bool
  needs_redraw : Bool

/-- Display.new: the empty display. -/
def Display.new : Display :=
  { data := fun _ => false, needs_redraw := false }

/-- Bounds-checked read of the flat cell array (the slice get of the Rust code). -/
def gridGet (data : Fin (DISPLAY_ROWS * DISPLAY_COLS) → Bool) (i : Nat) : Option Bool :=
  if h : i < DISPLAY_ROWS * DISPLAY_COLS then some (data ⟨i, h⟩) else none

/-- Bounds-checked write to the flat cell array (the slice get_mut of the Rust code). -/
def gridSet (data : Fin (DISPLAY_ROWS * DISPLAY_COLS) → Bool) (i : Nat) (v : Bool) :
    Option (Fin (DISPLAY_ROWS * DISPLAY_COLS) → Bool) :=
  if h : i < DISPLAY_ROWS * DISPLAY_COLS then some (Function.update data ⟨i, h⟩ v) else none

/-- Display.set from src/display.rs. -/
def Display.set (d : Display) (row col : Nat) (val : Bool) : Option Display :=
  if DISPLAY_ROWS ≤ row ∨ DISPLAY_COLS ≤ col then none
  else
    match gridSet d.data (row * ROW_STRIDE + col * COL_STRIDE) val with
    | none => none
    | some data2 => some { d with data := data2 }

/-- Display.get from src/display.rs. -/
def Display.get (d : Display) (row col : Nat) : Option Bool :=
  if DISPLAY_ROWS ≤ row ∨ DISPLAY_COLS ≤ col then none
  else gridGet d.data (row * ROW_STRIDE + col * COL_STRIDE)

/-- Display.xor from src/display.rs: flip is the old cell AND the argument
(true exactly when the cell goes from set to unset), the cell becomes the
exclusive or of the old cell and the argument. -/
def Display.xor (d : Display) (row col : Nat) (val : Bool) : Option (Bool × Display) :=
  if DISPLAY_ROWS ≤ row ∨ DISPLAY_COLS ≤ col then none
  else
    match gridGet d.data (row * ROW_STRIDE + col * COL_STRIDE) with
    | none => none
    | some el =>
      match gridSet d.data (row * ROW_STRIDE + col * COL_STRIDE) (Bool.xor el val) with
      | none => none
      | some data2 => some (el && val, { d with data := data2 })

/-- Display.clear from src/display.rs. -/
def Display.clear (d : Display) : Option Display :=
  some { d with data := fun _ => false }

/-- EmulatorConfig from src/config.rs (the two colour strings, used only by the
external renderer, are omitted). -/
structure EmulatorConfig where
  instructions_per_second : Nat
  shift_use_vy : Bool
  jump_offset_use_v0 : Bool
  store_memory_update_index : Bool

/-- EmulatorConfig default values from src/config.rs. -/
def EmulatorConfig.default : EmulatorConfig :=
  { instructions_per_second := 700
    shift_use_vy := true
    jump_offset_use_v0 := true
    store_memory_update_index := false }

/-- Emulator from src/emulator.rs, restricted to the fields the instruction
engine reads and writes.  The two timer cells are the u8 values seen from the
instruction domain; the thread handles, frontend box, rng and step duration
are not state of the engine. -/
structure Emulator where
  memory : Fin MEMORY_SIZE → Nat
  display : Display
  program_counter : Nat
  index_register : Nat
  stack : Fin MAX_STACK_SIZE → Nat
  stack_top : Nat
  delay_timer : Nat
  sound_timer : Nat
  registers : Fin NUM_REGISTERS → Nat
  playing_sound : Bool
  config : EmulatorConfig

/-- Bounds-checked memory read (memory.get in the Rust code). -/
def memGet (mem : Fin MEMORY_SIZE → Nat) (i : Nat) : Option Nat :=
  if h : i < MEMORY_SIZE then some (mem ⟨i, h⟩) else none

/-- Bounds-checked memory write (memory.get_mut followed by assignment). -/
def memSet (mem : Fin MEMORY_SIZE → Nat) (i : Nat) (v : Nat) :
    Option (Fin MEMORY_SIZE → Nat) :=
  if h : i < MEMORY_SIZE then some (Function.update mem ⟨i, h⟩ v) else none

/-- Emulator::get_reg. -/
def Emulator.get_reg (e : Emulator) (register : Nat) : Option Nat :=
  if h : register < NUM_REGISTERS then some (e.registers ⟨register, h⟩) else none

/-- Emulator::set_reg. -/
def Emulator.set_reg (e : Emulator) (register : Nat) (value : Nat) : Option Emulator :=
  if h : NUM_REGISTERS ≤ register then none
  else some { e with registers := Function.update e.registers ⟨register, Nat.lt_of_not_le h⟩ value }

/-- Emulator::set_index (always succeeds). -/
def Emulator.set_index (e : Emulator) (value : Nat) : Option Emulator :=
  some { e with index_register := value }

/-- Emulator::jump (always succeeds). -/
def Emulator.jump (e : Emulator) (dest : Nat) : Option Emulator :=
  some { e with program_counter := dest }

/-- Emulator::stack_push: write at stack_top (stack overflow is an error),
then increment stack_top. -/
def Emulator.stack_push (e : Emulator) (value : Nat) : Option Emulator :=
  if h : e.stack_top < MAX_STACK_SIZE then
    some { e with
      stack := Function.update e.stack ⟨e.stack_top, h⟩ value
      stack_top := e.stack_top + 1 }
  else none

/-- Emulator::stack_pop: popping at stack_top zero is an underflow error;
otherwise decrement stack_top and read the entry there. -/
def Emulator.stack_pop (e : Emulator) : Option (Nat × Emulator) :=
  if e.stack_top = 0 then none
  else
    if h : e.stack_top - 1 < MAX_STACK_SIZE then
      some (e.stack ⟨e.stack_top - 1, h⟩, { e with stack_top := e.stack_top - 1 })
    else none

/-- Emulator::fetch: read the two instruction bytes at the program counter and
advance the program counter by 2.  On an out-of-bounds read nothing is
advanced (the Rust code mutates the counter only after both reads). -/
def Emulator.fetch (e : Emulator) : Option (Nat × Nat × Emulator) :=
  match memGet e.memory e.program_counter, memGet e.memory (e.program_counter + 1) with
  | some b1, some b2 =>
    some (b1, b2, { e with program_counter := e.program_counter + INSTRUCTION_LENGTH })
  | _, _ => none

/-- Emulator::load_bytes: copy the bytes into memory one at a time starting at
start_position.  The Rust function mutates through a mutable reference, so the
bytes written before an out-of-bounds failure stay written; the model returns
the (possibly partially written) state together with a success flag. -/
def Emulator.load_bytes : Emulator → List Nat → Nat → Emulator × Bool
  | e, [], _ => (e, true)
  | e, b :: rest, pos =>
    match memSet e.memory pos b with
    | none => (e, false)
    | some mem2 => Emulator.load_bytes { e with memory := mem2 } rest (pos + 1)

/-- Emulator::load_font: load FONT at FONT_START_POSITION. -/
def Emulator.load_font (e : Emulator) : Emulator × Bool :=
  e.load_bytes FONT FONT_START_POSITION

/-- The zeroed state built inside Emulator::new before the font is loaded. -/
def Emulator.initial (config : EmulatorConfig) : Emulator :=
  { memory := fun _ => 0
    display := Display.new
    program_counter := GAME_MEMORY_START
    index_register := 0
    stack := fun _ => 0
    stack_top := 0
    delay_timer := 0
    sound_timer := 0
    registers := fun _ => 0
    playing_sound := false
    config := config }

/-- Emulator::new: build the zeroed state, then load the font, propagating a
font-load failure. -/
def Emulator.new (config : EmulatorConfig) : Option Emulator :=
  match (Emulator.initial config).load_font with
  | (e, true) => some e
  | (_, false) => none

/-- The inner column loop of Emulator::draw_sprite: for each of the 8 sprite
columns (fuel counts the remaining ones, col_offset the current one), stop at
the right screen edge, otherwise XOR the display cell with the most
significant bit of the shifted sprite byte, accumulating the turned_off flag.
The byte shift is the u8 left shift, so it wraps mod 256. -/
def drawCols (row x_pos : Nat) : Nat → Nat → Nat → Display → Bool → Option (Display × Bool)
  | _sprite_byte, 0, _col_offset, d, turned_off => some (d, turned_off)
  | sprite_byte, fuel + 1, col_offset, d, turned_off =>
    if DISPLAY_COLS ≤ x_pos + col_offset then some (d, turned_off)
    else
      match Display.xor d row (x_pos + col_offset) (Nat.land sprite_byte 128 == 128) with
      | none => none
      | some (flip, d2) =>
        drawCols row x_pos ((sprite_byte * 2) % 256) fuel (col_offset + 1) d2 (turned_off || flip)

/-- The outer row loop of Emulator::draw_sprite: for each sprite row (fuel
counts the remaining ones), stop at the bottom screen edge, otherwise read the
sprite byte from memory (propagating an out-of-bounds error) and run the
column loop. -/
def drawRows (mem : Fin MEMORY_SIZE → Nat) (x_pos y_pos : Nat) :
    Nat → Nat → Nat → Display → Bool → Option (Display × Bool)
  | 0, _row_offset, _cur_index, d, turned_off => some (d, turned_off)
  | fuel + 1, row_offset, cur_index, d, turned_off =>
    if DISPLAY_ROWS ≤ y_pos + row_offset then some (d, turned_off)
    else
      match memGet mem cur_index with
      | none => none
      | some sprite_byte =>
        match drawCols (y_pos + row_offset) x_pos sprite_byte SPRITE_WIDTH 0 d turned_off with
        | none => none
        | some (d2, t2) => drawRows mem x_pos y_pos fuel (row_offset + 1) (cur_index + 1) d2 t2

/-- Emulator::draw_sprite: wrap the start coordinates, run the row loop, and
set VF to 1 if any XOR turned a cell off.  Note that the Rust code sets VF
only in that case; it never writes 0 to VF. -/
def Emulator.draw_sprite (e : Emulator) (sprite_index sprite_length x_pos y_pos : Nat) :
    Option Emulator :=
  match drawRows e.memory (x_pos % DISPLAY_COLS) (y_pos % DISPLAY_ROWS)
      sprite_length 0 sprite_index e.display false with
  | none => none
  | some (d, turned_off) =>
    if turned_off then Emulator.set_reg { e with display := d } 0xF 1
    else some { e with display := d }

/-- The key-scan loop of opcode FX0A: check keys 0x0 to 0xF in ascending order
and stop at the first held one (fuel is the number of keys left to try). -/
def findKeyLoop (keys : Nat → Bool) : Nat → Nat → Option Nat
  | _key, 0 => none
  | key, fuel + 1 => if keys key then some key else findKeyLoop keys (key + 1) fuel

/-- The register-store loop of opcode FX55: write V0 through VX to memory at
idx onward, with the bounds checks of get_reg and of the memory write. -/
def storeLoop (regs : Fin NUM_REGISTERS → Nat) (idx x : Nat) :
    (Fin MEMORY_SIZE → Nat) → Nat → Option (Fin MEMORY_SIZE → Nat)
  | mem, reg =>
    if x < reg then some mem
    else
      match (if h : reg < NUM_REGISTERS then some (regs ⟨reg, h⟩) else none) with
      | none => none
      | some v =>
        match memSet mem (idx + reg) v with
        | none => none
        | some mem2 => storeLoop regs idx x mem2 (reg + 1)
  termination_by mem reg => x + 1 - reg
  decreasing_by omega

/-- The register-load loop of opcode FX65: read memory at idx onward into V0
through VX, with the bounds checks of the memory read and of set_reg. -/
def loadLoop (mem : Fin MEMORY_SIZE → Nat) (idx x : Nat) :
    (Fin NUM_REGISTERS → Nat) → Nat → Option (Fin NUM_REGISTERS → Nat)
  | regs, reg =>
    if x < reg then some regs
    else
      match memGet mem (idx + reg) with
      | none => none
      | some v =>
        if h : reg < NUM_REGISTERS then
          loadLoop mem idx x (Function.update regs ⟨reg, h⟩ v) (reg + 1)
        else none
  termination_by regs reg => x + 1 - reg
  decreasing_by omega

/-- The dispatch of Emulator::execute, taking the already decoded nibbles
nib1, nib_x, nib_y, nib_n and the immediate byte nib_nn.  The sequence of
conditions mirrors the arms of the Rust match in source order (first match
wins; the arms here do not overlap except for the two 8-class arms and the
final catch-all, exactly as in the source).  The keys argument stands for
frontend check_key and rand for the u32 drawn from the rng in opcode CXNN. -/
def decodeExec (e : Emulator) (keys : Nat → Bool) (rand : Nat)
    (nib1 nib_x nib_y nib_n nib_nn : Nat) : Option Emulator :=
  if nib1 = 0 ∧ nib_x = 0 ∧ nib_y = 14 ∧ nib_n = 0 then
    match Display.clear e.display with
    | none => none
    | some d2 => some { e with display := { d2 with needs_redraw := true } }
  else if nib1 = 1 then
    Emulator.jump e (nib_x * 256 + nib_y * 16 + nib_n)
  else if nib1 = 2 then
    match e.stack_push (e.program_counter % 65536) with
    | none => none
    | some e2 => Emulator.jump e2 (nib_x * 256 + nib_y * 16 + nib_n)
  else if nib1 = 0 ∧ nib_x = 0 ∧ nib_y = 14 ∧ nib_n = 14 then
    match e.stack_pop with
    | none => none
    | some (dest, e2) => Emulator.jump e2 dest
  else if nib1 = 3 then
    match e.get_reg nib_x with
    | none => none
    | some vx =>
      if vx = nib_nn then
        some { e with program_counter := e.program_counter + INSTRUCTION_LENGTH }
      else some e
  else if nib1 = 4 then
    match e.get_reg nib_x with
    | none => none
    | some vx =>
      if vx ≠ nib_nn then
        some { e with program_counter := e.program_counter + INSTRUCTION_LENGTH }
      else some e
  else if nib1 = 5 then
    match e.get_reg nib_x, e.get_reg nib_y with
    | some vx, some vy =>
      if vx = vy then
        some { e with program_counter := e.program_counter + INSTRUCTION_LENGTH }
      else some e
    | _, _ => none
  else if nib1 = 9 then
    match e.get_reg nib_x, e.get_reg nib_y with
    | some vx, some vy =>
      if vx ≠ vy then
        some { e with program_counter := e.program_counter + INSTRUCTION_LENGTH }
      else some e
    | _, _ => none
  else if nib1 = 6 then
    e.set_reg nib_x nib_nn
  else if nib1 = 7 then
    match e.get_reg nib_x with
    | none => none
    | some vx => e.set_reg nib_x ((vx + nib_nn) % 256)
  else if nib1 = 8 ∧ nib_n = 0 then
    match e.get_reg nib_y with
    | none => none
    | some vy => e.set_reg nib_x vy
  else if nib1 = 8 then
    match e.get_reg nib_x, e.get_reg nib_y with
    | some vx, some vy =>
      if nib_n = 1 then
        e.set_reg nib_x (Nat.lor vx vy)
      else if nib_n = 2 then
        e.set_reg nib_x (Nat.land vx vy)
      else if nib_n = 3 then
        e.set_reg nib_x (Nat.xor vx vy)
      else if nib_n = 4 then
        match e.set_reg 0xF (if 256 ≤ vx + vy then 1 else 0) with
        | none => none
        | some e2 => e2.set_reg nib_x ((vx + vy) % 256)
      else if nib_n = 5 then
        match e.set_reg 0xF (if vx < vy then 0 else 1) with
        | none => none
        | some e2 => e2.set_reg nib_x ((vx + 256 - vy) % 256)
      else if nib_n = 7 then
        match e.set_reg 0xF (if vy < vx then 0 else 1) with
        | none => none
        | some e2 => e2.set_reg nib_x ((vy + 256 - vx) % 256)
      else if nib_n = 6 ∨ nib_n = 14 then
        match e.set_reg nib_x
            (if nib_n = 6 then (if e.config.shift_use_vy then vy else vx) / 2
             else ((if e.config.shift_use_vy then vy else vx) * 2) % 256) with
        | none => none
        | some e2 =>
          e2.set_reg 0xF
            (Nat.land (if e.config.shift_use_vy then vy else vx) (if nib_n = 6 then 1 else 128))
      else none
    | _, _ => none
  else if nib1 = 10 then
    Emulator.set_index e (nib_x * 256 + nib_y * 16 + nib_n)
  else if nib1 = 11 then
    match (if e.config.jump_offset_use_v0 then e.get_reg 0 else e.get_reg nib_x) with
    | none => none
    | some v => some { e with program_counter := nib_x * 256 + nib_y * 16 + nib_n + v }
  else if nib1 = 12 then
    e.set_reg nib_x (Nat.land (rand % 4294967296 / 16777216) nib_nn)
  else if nib1 = 13 then
    match e.get_reg nib_x, e.get_reg nib_y with
    | some vx, some vy => Emulator.draw_sprite e e.index_register nib_n vx vy
    | _, _ => none
  else if nib1 = 14 ∧ nib_y = 9 ∧ nib_n = 14 then
    match e.get_reg nib_x with
    | none => none
    | some vx =>
      if keys vx then
        some { e with program_counter := e.program_counter + INSTRUCTION_LENGTH }
      else some e
  else if nib1 = 14 ∧ nib_y = 10 ∧ nib_n = 1 then
    match e.get_reg nib_x with
    | none => none
    | some vx =>
      if ¬ keys vx then
        some { e with program_counter := e.program_counter + INSTRUCTION_LENGTH }
      else some e
  else if nib1 = 15 ∧ nib_y = 0 ∧ nib_n = 7 then
    e.set_reg nib_x e.delay_timer
  else if nib1 = 15 ∧ nib_y = 1 ∧ nib_n = 5 then
    match e.get_reg nib_x with
    | none => none
    | some vx => some { e with delay_timer := vx }
  else if nib1 = 15 ∧ nib_y = 1 ∧ nib_n = 8 then
    match e.get_reg nib_x with
    | none => none
    | some vx => some { e with sound_timer := vx }
  else if nib1 = 15 ∧ nib_y = 1 ∧ nib_n = 14 then
    match e.get_reg nib_x with
    | none => none
    | some vx =>
      match Emulator.set_index e ((e.index_register + vx) % 65536) with
      | none => none
      | some e2 =>
        e2.set_reg 0xF
          (if 65536 ≤ e.index_register + vx ∨ 0x0FFF < (e.index_register + vx) % 65536
           then 1 else 0)
  else if nib1 = 15 ∧ nib_y = 0 ∧ nib_n = 10 then
    match findKeyLoop keys 0 16 with
    | some key => e.set_reg nib_x key
    | none => some { e with program_counter := e.program_counter - INSTRUCTION_LENGTH }
  else if nib1 = 15 ∧ nib_y = 2 ∧ nib_n = 9 then
    Emulator.set_index e (FONT_START_POSITION + nib_x * FONT_HEIGHT)
  else if nib1 = 15 ∧ nib_y = 3 ∧ nib_n = 3 then
    match e.get_reg nib_x with
    | none => none
    | some vx =>
      match memSet e.memory (e.index_register + 2 - 0) (vx % 10 / 1) with
      | none => none
      | some m0 =>
        match memSet m0 (e.index_register + 2 - 1) (vx % 100 / 10) with
        | none => none
        | some m1 =>
          match memSet m1 (e.index_register + 2 - 2) (vx % 1000 / 100) with
          | none => none
          | some m2 => some { e with memory := m2 }
  else if nib1 = 15 ∧ nib_y = 5 ∧ nib_n = 5 then
    match storeLoop e.registers e.index_register nib_x e.memory 0 with
    | none => none
    | some mem2 =>
      if e.config.store_memory_update_index then
        Emulator.set_index { e with memory := mem2 }
          ((e.index_register + nib_x + 1) % 65536)
      else some { e with memory := mem2 }
  else if nib1 = 15 ∧ nib_y = 6 ∧ nib_n = 5 then
    match loadLoop e.memory e.index_register nib_x e.registers 0 with
    | none => none
    | some regs2 =>
      if e.config.store_memory_update_index then
        Emulator.set_index { e with registers := regs2 }
          ((e.index_register + nib_x + 1) % 65536)
      else some { e with registers := regs2 }
  else
    some e

/-- Emulator::execute: fetch the two instruction bytes (advancing the program
counter), decode the four nibbles and dispatch.  The nibble decode mirrors
the u8 shifts and masks of the source: the high nibble is the byte divided by
16 and the low nibble the byte mod 16. -/
def Emulator.execute (e : Emulator) (keys : Nat → Bool) (rand : Nat) : Option Emulator :=
  match e.fetch with
  | none => none
  | some (b1, b2, e1) => decodeExec e1 keys rand (b1 / 16) (b1 % 16) (b2 / 16) (b2 % 16) b2

/-- The frontend sound calls that the model distinguishes. -/
inductive SoundCall where
  | play_sound
  | stop_sound
deriving DecidableEq

/-- The sound-transition block of one iteration of Emulator::run (the lines
between reading the sound timer and the pacing sleep): given the sound timer
value read this iteration and the playing_sound flag, it yields the list of
frontend sound calls made and the new playing_sound flag.  Note that the Rust
code calls play_sound in both branches; frontend stop_sound is never called. -/
def runSoundStep (sound_timer : Nat) (playing_sound : Bool) : List SoundCall × Bool :=
  if 0 < sound_timer ∧ playing_sound = false then ([SoundCall.play_sound], true)
  else if sound_timer = 0 ∧ playing_sound = true then ([SoundCall.play_sound], false)
  else ([], playing_sound)

/- Helper lemmas about the embedding. -/

/-- A successful bounds-checked memory read implies the index is in bounds. -/
lemma memGet_lt {mem : Fin MEMORY_SIZE → Nat} {i b : Nat} (h : memGet mem i = some b) :
    i < MEMORY_SIZE := by
  by_contra hc
  unfold memGet at h
  rw [dif_neg hc] at h
  exact Option.noConfusion h

/-- An in-bounds memGet returns the stored byte. -/
lemma memGet_eq {mem : Fin MEMORY_SIZE → Nat} {i : Nat} (h : i < MEMORY_SIZE) :
    memGet mem i = some (mem ⟨i, h⟩) := by
  unfold memGet
  rw [dif_pos h]

/-- The success flag of load_bytes: true exactly when the byte list is empty
or fits entirely below the end of memory. -/
lemma load_bytes_snd (bs : List Nat) (e : Emulator) (pos : Nat) :
    (e.load_bytes bs pos).2 = decide (bs.length = 0 ∨ pos + bs.length ≤ MEMORY_SIZE) := by
  induction bs generalizing e pos with
  | nil => rfl
  | cons b rest ih =>
    simp only [Emulator.load_bytes]
    by_cases hp : pos < MEMORY_SIZE
    · simp only [show memSet e.memory pos b = some (Function.update e.memory ⟨pos, hp⟩ b) by
        unfold memSet; rw [dif_pos hp]]
      rw [ih]
      rw [decide_eq_decide]
      have hp4 : pos < 4096 := hp
      show (rest.length = 0 ∨ pos + 1 + rest.length ≤ 4096) ↔
        (rest.length + 1 = 0 ∨ pos + (rest.length + 1) ≤ 4096)
      omega
    · simp only [show memSet e.memory pos b = none by unfold memSet; rw [dif_neg hp]]
      have hp4 : ¬ pos < 4096 := hp
      show false = decide ((b :: rest).length = 0 ∨ pos + (b :: rest).length ≤ MEMORY_SIZE)
      rw [eq_comm, decide_eq_false_iff_not]
      show ¬(rest.length + 1 = 0 ∨ pos + (rest.length + 1) ≤ 4096)
      omega

/-- The memory left behind by load_bytes, whether it succeeded or failed: every
byte of the list whose destination is in bounds has been written (the Rust
loop mutates through a mutable reference before discovering the overflow),
and every cell outside the written range keeps its previous value. -/
lemma load_bytes_memory (bs : List Nat) (e : Emulator) (pos : Nat) (i : Fin MEMORY_SIZE) :
    (e.load_bytes bs pos).1.memory i =
      if pos ≤ i.val ∧ i.val < pos + bs.length then bs.getD (i.val - pos) 0 else e.memory i := by
  induction bs generalizing e pos with
  | nil =>
    rw [if_neg (show ¬(pos ≤ i.val ∧ i.val < pos + ([] : List Nat).length) by
      simp only [List.length_nil]; omega)]
    rfl
  | cons b rest ih =>
    simp only [Emulator.load_bytes]
    by_cases hp : pos < MEMORY_SIZE
    · simp only [show memSet e.memory pos b = some (Function.update e.memory ⟨pos, hp⟩ b) by
        unfold memSet; rw [dif_pos hp]]
      rw [ih]
      show (if pos + 1 ≤ i.val ∧ i.val < pos + 1 + rest.length then rest.getD (i.val - (pos + 1)) 0
        else Function.update e.memory ⟨pos, hp⟩ b i) = _
      by_cases h1 : i.val = pos
      · rw [if_neg (show ¬(pos + 1 ≤ i.val ∧ i.val < pos + 1 + rest.length) by omega)]
        rw [if_pos (show pos ≤ i.val ∧ i.val < pos + (b :: rest).length by
          simp only [List.length_cons]; omega)]
        rw [Function.update_apply, if_pos (Fin.ext h1)]
        rw [show i.val - pos = 0 by omega, List.getD_cons_zero]
      · by_cases h2 : pos + 1 ≤ i.val ∧ i.val < pos + 1 + rest.length
        · rw [if_pos h2]
          rw [if_pos (show pos ≤ i.val ∧ i.val < pos + (b :: rest).length by
            simp only [List.length_cons]; omega)]
          rw [show i.val - pos = (i.val - (pos + 1)) + 1 by omega, List.getD_cons_succ]
        · rw [if_neg h2]
          rw [if_neg (show ¬(pos ≤ i.val ∧ i.val < pos + (b :: rest).length) by
            simp only [List.length_cons]; omega)]
          rw [Function.update_apply, if_neg (by simp only [Fin.ext_iff]; exact h1)]
    · simp only [show memSet e.memory pos b = none by unfold memSet; rw [dif_neg hp]]
      have hi : i.val < 4096 := i.isLt
      have hp4 : ¬ pos < 4096 := hp
      rw [if_neg (show ¬(pos ≤ i.val ∧ i.val < pos + (b :: rest).length) by omega)]

/-- load_bytes touches no field of the emulator other than the memory. -/
lemma load_bytes_fields (bs : List Nat) (e : Emulator) (pos : Nat) :
    (e.load_bytes bs pos).1.display = e.display ∧
    (e.load_bytes bs pos).1.program_counter = e.program_counter ∧
    (e.load_bytes bs pos).1.index_register = e.index_register ∧
    (e.load_bytes bs pos).1.stack = e.stack ∧
    (e.load_bytes bs pos).1.stack_top = e.stack_top ∧
    (e.load_bytes bs pos).1.delay_timer = e.delay_timer ∧
    (e.load_bytes bs pos).1.sound_timer = e.sound_timer ∧
    (e.load_bytes bs pos).1.registers = e.registers ∧
    (e.load_bytes bs pos).1.playing_sound = e.playing_sound ∧
    (e.load_bytes bs pos).1.config = e.config := by
  induction bs generalizing e pos with
  | nil => exact ⟨rfl, rfl, rfl, rfl, rfl, rfl, rfl, rfl, rfl, rfl⟩
  | cons b rest ih =>
    simp only [Emulator.load_bytes]
    by_cases hp : pos < MEMORY_SIZE
    · simp only [show memSet e.memory pos b = some (Function.update e.memory ⟨pos, hp⟩ b) by
        unfold memSet; rw [dif_pos hp]]
      exact ih _ _
    · simp only [show memSet e.memory pos b = none by unfold memSet; rw [dif_neg hp]]
      exact ⟨trivial, trivial, trivial, trivial, trivial, trivial, trivial, trivial, trivial,
        trivial⟩

/-- The key-scan loop finds the lowest-numbered held key: if key k is held,
every key below k is up, and k is within the scanned range, the loop returns
exactly k. -/
lemma findKeyLoop_eq (keys : Nat → Bool) (k : Nat) (hk : keys k = true)
    (hmin : ∀ j, j < k → keys j = false) :
    ∀ fuel k0, k0 ≤ k → k < k0 + fuel → findKeyLoop keys k0 fuel = some k := by
  intro fuel
  induction fuel with
  | zero => intro k0 h1 h2; omega
  | succ fuel ih =>
    intro k0 h1 h2
    rcases Nat.eq_or_lt_of_le h1 with he | hlt
    · subst he
      simp only [findKeyLoop, hk, if_true]
    · simp only [findKeyLoop, hmin k0 hlt, Bool.false_eq_true, if_false]
      exact ih (k0 + 1) hlt (by omega)

/-- The nibble patterns that reach the final catch-all arm of the dispatch of
Emulator::execute: the negation, in source order, of each of the 27 dispatch
arm conditions. -/
def IsFallback (n1 x y n : Nat) : Prop :=
  ¬(n1 = 0 ∧ x = 0 ∧ y = 14 ∧ n = 0) ∧
  ¬(n1 = 1) ∧
  ¬(n1 = 2) ∧
  ¬(n1 = 0 ∧ x = 0 ∧ y = 14 ∧ n = 14) ∧
  ¬(n1 = 3) ∧
  ¬(n1 = 4) ∧
  ¬(n1 = 5) ∧
  ¬(n1 = 9) ∧
  ¬(n1 = 6) ∧
  ¬(n1 = 7) ∧
  ¬(n1 = 8 ∧ n = 0) ∧
  ¬(n1 = 8) ∧
  ¬(n1 = 10) ∧
  ¬(n1 = 11) ∧
  ¬(n1 = 12) ∧
  ¬(n1 = 13) ∧
  ¬(n1 = 14 ∧ y = 9 ∧ n = 14) ∧
  ¬(n1 = 14 ∧ y = 10 ∧ n = 1) ∧
  ¬(n1 = 15 ∧ y = 0 ∧ n = 7) ∧
  ¬(n1 = 15 ∧ y = 1 ∧ n = 5) ∧
  ¬(n1 = 15 ∧ y = 1 ∧ n = 8) ∧
  ¬(n1 = 15 ∧ y = 1 ∧ n = 14) ∧
  ¬(n1 = 15 ∧ y = 0 ∧ n = 10) ∧
  ¬(n1 = 15 ∧ y = 2 ∧ n = 9) ∧
  ¬(n1 = 15 ∧ y = 3 ∧ n = 3) ∧
  ¬(n1 = 15 ∧ y = 5 ∧ n = 5) ∧
  ¬(n1 = 15 ∧ y = 6 ∧ n = 5)

/-- A nibble pattern satisfying IsFallback falls through every dispatch arm
and leaves the state untouched. -/
lemma decodeExec_fallthrough (e : Emulator) (keys : Nat → Bool) (rand : Nat)
    (n1 x y n nn : Nat) (h : IsFallback n1 x y n) :
    decodeExec e keys rand n1 x y n nn = some e := by
  obtain ⟨h1, h2, h3, h4, h5, h6, h7, h8, h9, h10, h11, h12, h13, h14, h15, h16, h17, h18,
    h19, h20, h21, h22, h23, h24, h25, h26, h27⟩ := h
  unfold decodeExec
  rw [if_neg h1, if_neg h2, if_neg h3, if_neg h4, if_neg h5, if_neg h6, if_neg h7, if_neg h8,
    if_neg h9, if_neg h10, if_neg h11, if_neg h12, if_neg h13, if_neg h14, if_neg h15,
    if_neg h16, if_neg h17, if_neg h18, if_neg h19, if_neg h20, if_neg h21, if_neg h22,
    if_neg h23, if_neg h24, if_neg h25, if_neg h26, if_neg h27]

/-- An 8-class opcode whose low nibble is none of 0 through 7 or E reaches the
bail arm of the inner match and is a fatal error. -/
lemma decodeExec_binop_err (e : Emulator) (keys : Nat → Bool) (rand : Nat)
    (x y n nn : Nat) (hx : x < 16) (hy : y < 16)
    (hn : n = 8 ∨ n = 9 ∨ n = 10 ∨ n = 11 ∨ n = 12 ∨ n = 13 ∨ n = 15) :
    decodeExec e keys rand 8 x y n nn = none := by
  have hx16 : x < NUM_REGISTERS := hx
  have hy16 : y < NUM_REGISTERS := hy
  rcases hn with rfl | rfl | rfl | rfl | rfl | rfl | rfl <;>
    simp [decodeExec, Emulator.get_reg, hx16, hy16]

/-- Reduction of one execute step once the two fetched bytes are known. -/
lemma execute_eq (e : Emulator) (keys : Nat → Bool) (rand b1 b2 : Nat)
    (h1 : memGet e.memory e.program_counter = some b1)
    (h2 : memGet e.memory (e.program_counter + 1) = some b2) :
    Emulator.execute e keys rand =
      decodeExec { e with program_counter := e.program_counter + INSTRUCTION_LENGTH }
        keys rand (b1 / 16) (b1 % 16) (b2 / 16) (b2 % 16) b2 := by
  unfold Emulator.execute Emulator.fetch
  rw [h1, h2]

/- Concrete fixtures used by the claim theorems and their witnesses. -/

/-- A fresh emulator with the default configuration and the font not loaded
(memory all zero), used as a base state for the concrete test fixtures. -/
def zeroEmu : Emulator := Emulator.initial EmulatorConfig.default

/-- Write one byte of a test fixture into memory. -/
def Emulator.pokeMem (e : Emulator) (i : Fin MEMORY_SIZE) (v : Nat) : Emulator :=
  { e with memory := Function.update e.memory i v }

/-- Write one register of a test fixture. -/
def Emulator.pokeReg (e : Emulator) (r : Fin NUM_REGISTERS) (v : Nat) : Emulator :=
  { e with registers := Function.update e.registers r v }

/- Claim C2. -/

/-- A state whose next instruction is 0x0123: a 0-class opcode that is neither
00E0 nor 00EE, so it reaches the catch-all dispatch arm. -/
def c2FallEmu : Emulator := (zeroEmu.pokeMem ⟨0x200, by decide⟩ 0x01).pokeMem ⟨0x201, by decide⟩ 0x23

/-- A state whose next instruction is 0x8018: an 8-class opcode with low
nibble 8, which no inner arm handles. -/
def c2BailEmu : Emulator := (zeroEmu.pokeMem ⟨0x200, by decide⟩ 0x80).pokeMem ⟨0x201, by decide⟩ 0x18

/-- Claim C2 counterexample: the claim says every instruction matching no
dispatch-table row, including 8XYN with an unlisted N, executes non-fatally;
but executing 0x8018 returns an error (the Rust code bails). -/
theorem c2_counterexample : Emulator.execute c2BailEmu (fun _ => false) 0 = none := by
  rw [execute_eq c2BailEmu (fun _ => false) 0 0x80 0x18 (by decide) (by decide)]
  exact decodeExec_binop_err _ _ _ _ _ _ _ (by decide) (by decide) (Or.inl rfl)

/-- Claim C2 (amended): an instruction that reaches the catch-all dispatch arm
(its nibbles satisfy IsFallback) executes non-fatally with no state change
other than the program counter advancing by 2 past the instruction; but an
8-class opcode 8XYN with N in 8 to D or F does not fall through: it returns a
fatal error.  (5XYN and 9XYN with N nonzero also do not fall through: the
dispatch ignores their low nibble and treats them as register-compare skips.) -/
theorem c2_unimplemented_amended :
    (∀ (e : Emulator) (keys : Nat → Bool) (rand b1 b2 : Nat),
      memGet e.memory e.program_counter = some b1 →
      memGet e.memory (e.program_counter + 1) = some b2 →
      IsFallback (b1 / 16) (b1 % 16) (b2 / 16) (b2 % 16) →
      Emulator.execute e keys rand = some { e with program_counter := e.program_counter + 2 }) ∧
    (∀ (e : Emulator) (keys : Nat → Bool) (rand x y n : Nat),
      x < 16 → y < 16 →
      (n = 8 ∨ n = 9 ∨ n = 10 ∨ n = 11 ∨ n = 12 ∨ n = 13 ∨ n = 15) →
      memGet e.memory e.program_counter = some (16 * 8 + x) →
      memGet e.memory (e.program_counter + 1) = some (16 * y + n) →
      Emulator.execute e keys rand = none) := by
  constructor
  · intro e keys rand b1 b2 h1 h2 hfb
    rw [execute_eq e keys rand b1 b2 h1 h2]
    exact decodeExec_fallthrough _ _ _ _ _ _ _ _ hfb
  · intro e keys rand x y n hx hy hn h1 h2
    rw [execute_eq e keys rand _ _ h1 h2]
    have d1 : (16 * 8 + x) / 16 = 8 := by omega
    have d2 : (16 * 8 + x) % 16 = x := by omega
    have d3 : (16 * y + n) / 16 = y := by
      have : n < 16 := by rcases hn with rfl | rfl | rfl | rfl | rfl | rfl | rfl <;> omega
      omega
    have d4 : (16 * y + n) % 16 = n := by
      have : n < 16 := by rcases hn with rfl | rfl | rfl | rfl | rfl | rfl | rfl <;> omega
      omega
    rw [d1, d2, d3, d4]
    exact decodeExec_binop_err _ _ _ _ _ _ _ hx hy hn

/-- Claim C2 witness: the amended theorem applied to the concrete fixtures. -/
theorem c2_unimplemented_amended_witness :
    Emulator.execute c2FallEmu (fun _ => false) 0 =
      some { c2FallEmu with program_counter := c2FallEmu.program_counter + 2 } ∧
    Emulator.execute c2BailEmu (fun _ => false) 1 = none :=
  ⟨c2_unimplemented_amended.1 c2FallEmu (fun _ => false) 0 0x01 0x23
      (by decide) (by decide) (by unfold IsFallback; omega),
   c2_unimplemented_amended.2 c2BailEmu (fun _ => false) 1 0 1 8
      (by decide) (by decide) (Or.inl rfl) (by decide) (by decide)⟩

/- Claim C5. -/

/-- Claim C5: the run loop is edge-triggered, but on the nonzero-to-zero
transition of the sound timer the code invokes play_sound, not stop_sound.
The four cases are (timer, playing): staying nonzero and staying zero make no
calls; becoming nonzero calls play_sound once; becoming zero again calls
play_sound (the bug) exactly once instead of stop_sound. -/
theorem c5_sound_transition_code_bug :
    runSoundStep 5 false = ([SoundCall.play_sound], true) ∧
    runSoundStep 5 true = ([], true) ∧
    runSoundStep 0 false = ([], false) ∧
    runSoundStep 0 true = ([SoundCall.play_sound], false) :=
  ⟨rfl, rfl, rfl, rfl⟩

/- Claim C6. -/

/-- Claim C6 counterexample: loading 3585 bytes (one more than fits above
0x200) reports the failure, but partial state is left behind: address 0x200
now holds the first byte of the program, no longer its pre-load value. -/
theorem c6_counterexample :
    (zeroEmu.load_bytes (List.replicate 3585 1) GAME_MEMORY_START).2 = false ∧
    (zeroEmu.load_bytes (List.replicate 3585 1) GAME_MEMORY_START).1.memory ⟨0x200, by decide⟩ = 1 ∧
    zeroEmu.memory ⟨0x200, by decide⟩ = 0 := by
  refine ⟨?_, ?_, rfl⟩
  · rw [load_bytes_snd, List.length_replicate]
    decide
  · rw [load_bytes_memory, List.length_replicate]
    rw [if_pos (show GAME_MEMORY_START ≤ (0x200 : Nat) ∧ (0x200 : Nat) < GAME_MEMORY_START + 3585
      by decide)]
    show List.getD (List.replicate 3585 1) (0x200 - GAME_MEMORY_START) 0 = 1
    rw [show (0x200 - GAME_MEMORY_START : Nat) = 0 by decide]
    rw [show List.replicate 3585 (1 : Nat) = 1 :: List.replicate 3584 1 from rfl]
    rw [List.getD_cons_zero]

/-- Claim C6 (amended): loading more bytes than fit between 0x200 and the end
of memory reports a fatal load error before any execution begins, but partial
state is left behind: every address from 0x200 to the end of memory has been
overwritten with the corresponding program byte.  Addresses below 0x200 and
all non-memory state are unchanged. -/
theorem c6_load_error_amended (e : Emulator) (bs : List Nat)
    (h : MEMORY_SIZE - GAME_MEMORY_START < bs.length) :
    (e.load_bytes bs GAME_MEMORY_START).2 = false ∧
    (∀ i : Fin MEMORY_SIZE, GAME_MEMORY_START ≤ i.val →
      (e.load_bytes bs GAME_MEMORY_START).1.memory i = bs.getD (i.val - GAME_MEMORY_START) 0) ∧
    (∀ i : Fin MEMORY_SIZE, i.val < GAME_MEMORY_START →
      (e.load_bytes bs GAME_MEMORY_START).1.memory i = e.memory i) ∧
    (e.load_bytes bs GAME_MEMORY_START).1.program_counter = e.program_counter ∧
    (e.load_bytes bs GAME_MEMORY_START).1.display = e.display ∧
    (e.load_bytes bs GAME_MEMORY_START).1.registers = e.registers ∧
    (e.load_bytes bs GAME_MEMORY_START).1.index_register = e.index_register ∧
    (e.load_bytes bs GAME_MEMORY_START).1.stack_top = e.stack_top := by
  have h4 : 3584 < bs.length := h
  obtain ⟨hd, hpc, hidx, _hstk, hst, _hdt, _hsnd, hreg, _hps, _hcfg⟩ :=
    load_bytes_fields bs e GAME_MEMORY_START
  refine ⟨?_, ?_, ?_, hpc, hd, hreg, hidx, hst⟩
  · rw [load_bytes_snd, decide_eq_false_iff_not]
    show ¬(bs.length = 0 ∨ 512 + bs.length ≤ 4096)
    omega
  · intro i hi
    have hi2 : (512 : Nat) ≤ i.val := hi
    have hi4 : i.val < 4096 := i.isLt
    rw [load_bytes_memory]
    rw [if_pos (show GAME_MEMORY_START ≤ i.val ∧ i.val < GAME_MEMORY_START + bs.length by
      exact ⟨hi, by show i.val < 512 + bs.length; omega⟩)]
  · intro i hi
    have hi2 : i.val < (512 : Nat) := hi
    rw [load_bytes_memory]
    rw [if_neg (show ¬(GAME_MEMORY_START ≤ i.val ∧ i.val < GAME_MEMORY_START + bs.length) by
      rintro ⟨ha, _⟩
      have : (512 : Nat) ≤ i.val := ha
      omega)]

/-- Claim C6 witness: the amended theorem applied to the 3585-byte program. -/
theorem c6_load_error_amended_witness :
    (zeroEmu.load_bytes (List.replicate 3585 1) GAME_MEMORY_START).2 = false ∧
    (∀ i : Fin MEMORY_SIZE, GAME_MEMORY_START ≤ i.val →
      (zeroEmu.load_bytes (List.replicate 3585 1) GAME_MEMORY_START).1.memory i =
        (List.replicate 3585 1).getD (i.val - GAME_MEMORY_START) 0) ∧
    (∀ i : Fin MEMORY_SIZE, i.val < GAME_MEMORY_START →
      (zeroEmu.load_bytes (List.replicate 3585 1) GAME_MEMORY_START).1.memory i =
        zeroEmu.memory i) ∧
    (zeroEmu.load_bytes (List.replicate 3585 1) GAME_MEMORY_START).1.program_counter =
      zeroEmu.program_counter ∧
    (zeroEmu.load_bytes (List.replicate 3585 1) GAME_MEMORY_START).1.display =
      zeroEmu.display ∧
    (zeroEmu.load_bytes (List.replicate 3585 1) GAME_MEMORY_START).1.registers =
      zeroEmu.registers ∧
    (zeroEmu.load_bytes (List.replicate 3585 1) GAME_MEMORY_START).1.index_register =
      zeroEmu.index_register ∧
    (zeroEmu.load_bytes (List.replicate 3585 1) GAME_MEMORY_START).1.stack_top =
      zeroEmu.stack_top :=
  c6_load_error_amended zeroEmu (List.replicate 3585 1)
    (by rw [List.length_replicate]; decide)

/- Claim C8. -/

/-- Claim C8 counterexample: on an all-clear display, xor(0,0,true) turns the
cell on and reports no off-transition (first component false, cell now true);
the second identical call DOES report an off-transition (it returns true),
contradicting the claim that the second call reports no off-transition when
the first call turned the cell on. -/
theorem c8_counterexample :
    ((Display.new.xor 0 0 true).bind fun p =>
      (p.2.get 0 0).bind fun c1 =>
        (p.2.xor 0 0 true).map fun q => (p.1, c1, q.1)) = some (false, true, true) := by
  decide

/-- The display with one cell XORed with a value, abbreviating the state
Display.xor leaves behind at a valid index. -/
def Display.flipCell (d : Display) (i : Fin (DISPLAY_ROWS * DISPLAY_COLS)) (v : Bool) :
    Display :=
  Display.mk (Function.update d.data i (Bool.xor (d.data i) v)) d.needs_redraw

/-- Evaluation of Display.xor at a valid cell: the flip is the old cell AND
the value, and the cell becomes their exclusive or. -/
lemma xor_eq (d : Display) (row col : Nat) (v : Bool)
    (hnb : ¬(DISPLAY_ROWS ≤ row ∨ DISPLAY_COLS ≤ col))
    (hidx : row * ROW_STRIDE + col * COL_STRIDE < DISPLAY_ROWS * DISPLAY_COLS) :
    d.xor row col v =
      some (d.data ⟨row * ROW_STRIDE + col * COL_STRIDE, hidx⟩ && v,
        d.flipCell ⟨row * ROW_STRIDE + col * COL_STRIDE, hidx⟩ v) := by
  unfold Display.xor
  rw [if_neg hnb]
  simp only [show gridGet d.data (row * ROW_STRIDE + col * COL_STRIDE) =
      some (d.data ⟨row * ROW_STRIDE + col * COL_STRIDE, hidx⟩) by
    unfold gridGet; rw [dif_pos hidx]]
  simp only [show gridSet d.data (row * ROW_STRIDE + col * COL_STRIDE)
      (Bool.xor (d.data ⟨row * ROW_STRIDE + col * COL_STRIDE, hidx⟩) v) =
      some (Function.update d.data ⟨row * ROW_STRIDE + col * COL_STRIDE, hidx⟩
        (Bool.xor (d.data ⟨row * ROW_STRIDE + col * COL_STRIDE, hidx⟩) v)) by
    unfold gridSet; rw [dif_pos hidx]]
  rfl

/-- Reading the flipped cell gives the XOR of the old cell and the value. -/
lemma flipCell_data_same (d : Display) (i : Fin (DISPLAY_ROWS * DISPLAY_COLS)) (v : Bool) :
    (d.flipCell i v).data i = Bool.xor (d.data i) v := by
  unfold Display.flipCell
  exact Function.update_same i (Bool.xor (d.data i) v) d.data

/-- Flipping the same cell with the same value twice restores the display. -/
lemma flipCell_flipCell (d : Display) (i : Fin (DISPLAY_ROWS * DISPLAY_COLS)) (v : Bool) :
    (d.flipCell i v).flipCell i v = d := by
  show Display.mk (Function.update (Function.update d.data i (Bool.xor (d.data i) v)) i
      (Bool.xor (Function.update d.data i (Bool.xor (d.data i) v) i) v)) d.needs_redraw = d
  rw [Function.update_same, Function.update_idem]
  rw [show Bool.xor (Bool.xor (d.data i) v) v = d.data i by
    cases d.data i <;> cases v <;> rfl]
  rw [Function.update_eq_self]

/-- Claim C8 (amended): for every valid cell and value, applying xor twice
returns the display (hence the cell) to its original state, and the second
call reports an off-transition exactly when the first call turned the cell on
(original cell clear and value true) — not, as the claim stated, the other
way around. -/
theorem c8_xor_involution (d : Display) (row col : Nat) (v : Bool)
    (hr : row < DISPLAY_ROWS) (hc : col < DISPLAY_COLS) :
    ∃ f1 d1 f2 d2, d.xor row col v = some (f1, d1) ∧ d1.xor row col v = some (f2, d2) ∧
      d2 = d ∧ (f2 = true ↔ (d.get row col = some false ∧ v = true)) := by
  have hnb : ¬(DISPLAY_ROWS ≤ row ∨ DISPLAY_COLS ≤ col) := by omega
  have hidx : row * ROW_STRIDE + col * COL_STRIDE < DISPLAY_ROWS * DISPLAY_COLS := by
    simp only [ROW_STRIDE, COL_STRIDE, DISPLAY_ROWS, DISPLAY_COLS] at *
    omega
  have hget : d.get row col = some (d.data ⟨row * ROW_STRIDE + col * COL_STRIDE, hidx⟩) := by
    unfold Display.get gridGet
    rw [if_neg hnb, dif_pos hidx]
  have hstep1 := xor_eq d row col v hnb hidx
  have hstep2 := xor_eq (d.flipCell ⟨row * ROW_STRIDE + col * COL_STRIDE, hidx⟩ v)
    row col v hnb hidx
  rw [flipCell_data_same] at hstep2
  refine ⟨_, _, _, _, hstep1, hstep2, ?_, ?_⟩
  · exact flipCell_flipCell d ⟨row * ROW_STRIDE + col * COL_STRIDE, hidx⟩ v
  · rw [hget]
    cases d.data ⟨row * ROW_STRIDE + col * COL_STRIDE, hidx⟩ <;> cases v <;> simp

/-- Claim C8 witness: the amended theorem applied at cell (3, 5) of the empty
display with value true. -/
theorem c8_xor_involution_witness :
    (3 < DISPLAY_ROWS ∧ 5 < DISPLAY_COLS) ∧
    (∃ f1 d1 f2 d2, Display.new.xor 3 5 true = some (f1, d1) ∧
      d1.xor 3 5 true = some (f2, d2) ∧ d2 = Display.new ∧
      (f2 = true ↔ (Display.new.get 3 5 = some false ∧ true = true))) :=
  ⟨⟨by decide, by decide⟩, c8_xor_involution Display.new 3 5 true (by decide) (by decide)⟩

/- Claim C10. -/

/-- Claim C10: a freshly constructed emulator has program counter 0x200, all
registers, the index register, the stack entries and the stack-top index
zero, both timers zero, an all-clear display, and memory all zero except the
80 font bytes at 0x050 through 0x09F, which hold the font. -/
theorem c10_new_initial_state (cfg : EmulatorConfig) :
    ∃ em, Emulator.new cfg = some em ∧
      em.program_counter = GAME_MEMORY_START ∧
      em.index_register = 0 ∧
      em.stack_top = 0 ∧
      (∀ s : Fin MAX_STACK_SIZE, em.stack s = 0) ∧
      em.delay_timer = 0 ∧
      em.sound_timer = 0 ∧
      (∀ r : Fin NUM_REGISTERS, em.registers r = 0) ∧
      (∀ p, em.display.data p = false) ∧
      (∀ i : Fin MEMORY_SIZE, em.memory i =
        if FONT_START_POSITION ≤ i.val ∧ i.val < FONT_START_POSITION + 80 then
          FONT.getD (i.val - FONT_START_POSITION) 0
        else 0) := by
  have hsnd : ((Emulator.initial cfg).load_font).2 = true := by
    unfold Emulator.load_font
    rw [load_bytes_snd, show FONT.length = 80 from rfl]
    rfl
  obtain ⟨hd, hpc, hidx, hstk, hst, hdt, hsn, hreg, _hps, _hcfg⟩ :=
    load_bytes_fields FONT (Emulator.initial cfg) FONT_START_POSITION
  refine ⟨(Emulator.load_bytes (Emulator.initial cfg) FONT FONT_START_POSITION).1,
    ?_, hpc, hidx, hst, ?_, hdt, hsn, ?_, ?_, ?_⟩
  · unfold Emulator.new
    rcases hp : (Emulator.initial cfg).load_font with ⟨em, s⟩
    rw [hp] at hsnd
    have hs : s = true := hsnd
    subst hs
    show some em = some ((Emulator.initial cfg).load_font).1
    rw [hp]
  · intro s
    rw [show (Emulator.load_bytes (Emulator.initial cfg) FONT FONT_START_POSITION).1.stack =
      (Emulator.initial cfg).stack from hstk]
    rfl
  · intro r
    rw [show (Emulator.load_bytes (Emulator.initial cfg) FONT FONT_START_POSITION).1.registers =
      (Emulator.initial cfg).registers from hreg]
    rfl
  · intro p
    rw [show (Emulator.load_bytes (Emulator.initial cfg) FONT FONT_START_POSITION).1.display =
      (Emulator.initial cfg).display from hd]
    rfl
  · intro i
    rw [load_bytes_memory, show FONT.length = 80 from rfl]
    rfl

/-- Claim C10 witness: the theorem applied at the default configuration. -/
theorem c10_new_initial_state_witness :
    ∃ em, Emulator.new EmulatorConfig.default = some em ∧
      em.program_counter = GAME_MEMORY_START ∧
      em.index_register = 0 ∧
      em.stack_top = 0 ∧
      (∀ s : Fin MAX_STACK_SIZE, em.stack s = 0) ∧
      em.delay_timer = 0 ∧
      em.sound_timer = 0 ∧
      (∀ r : Fin NUM_REGISTERS, em.registers r = 0) ∧
      (∀ p, em.display.data p = false) ∧
      (∀ i : Fin MEMORY_SIZE, em.memory i =
        if FONT_START_POSITION ≤ i.val ∧ i.val < FONT_START_POSITION + 80 then
          FONT.getD (i.val - FONT_START_POSITION) 0
        else 0) :=
  c10_new_initial_state EmulatorConfig.default

/- Claim C7. -/

/-- Dispatch of opcode 1NNN: the program counter becomes NNN. -/
lemma decodeExec_jump (e : Emulator) (keys : Nat → Bool) (rand x y n nn : Nat) :
    decodeExec e keys rand 1 x y n nn =
      some { e with program_counter := x * 256 + y * 16 + n } := by
  unfold decodeExec
  rw [if_neg (by omega), if_pos rfl]
  rfl

/-- Dispatch of opcode 2NNN: push the current program counter (as u16), jump
to NNN. -/
lemma decodeExec_call (e : Emulator) (keys : Nat → Bool) (rand x y n nn : Nat)
    (hst : e.stack_top < MAX_STACK_SIZE) :
    decodeExec e keys rand 2 x y n nn =
      some { e with
        program_counter := x * 256 + y * 16 + n,
        stack := Function.update e.stack ⟨e.stack_top, hst⟩ (e.program_counter % 65536),
        stack_top := e.stack_top + 1 } := by
  unfold decodeExec
  rw [if_neg (by omega), if_neg (by omega), if_pos rfl]
  unfold Emulator.stack_push
  rw [dif_pos hst]
  rfl

/-- Dispatch of opcode 00EE: pop the stack into the program counter. -/
lemma decodeExec_ret (e : Emulator) (keys : Nat → Bool) (rand nn : Nat)
    (hst0 : ¬ e.stack_top = 0) (hst : e.stack_top - 1 < MAX_STACK_SIZE) :
    decodeExec e keys rand 0 0 14 14 nn =
      some { e with
        program_counter := e.stack ⟨e.stack_top - 1, hst⟩,
        stack_top := e.stack_top - 1 } := by
  unfold decodeExec
  rw [if_neg (by omega), if_neg (by omega), if_neg (by omega),
    if_pos (⟨rfl, rfl, rfl, rfl⟩ : (0 : Nat) = 0 ∧ (0 : Nat) = 0 ∧ (14 : Nat) = 14 ∧
      (14 : Nat) = 14)]
  unfold Emulator.stack_pop
  rw [if_neg hst0, dif_pos hst]
  rfl

/-- One executed Jump instruction 1NNN sets the program counter to exactly
NNN. -/
lemma exec_jump (e : Emulator) (keys : Nat → Bool) (rand x y n : Nat)
    (hx : x < 16) (hy : y < 16) (hn : n < 16)
    (h1 : memGet e.memory e.program_counter = some (16 * 1 + x))
    (h2 : memGet e.memory (e.program_counter + 1) = some (16 * y + n)) :
    Emulator.execute e keys rand =
      some { e with program_counter := x * 256 + y * 16 + n } := by
  rw [execute_eq e keys rand _ _ h1 h2]
  rw [show (16 * 1 + x) / 16 = 1 by omega, show (16 * 1 + x) % 16 = x by omega,
    show (16 * y + n) / 16 = y by omega, show (16 * y + n) % 16 = n by omega]
  exact decodeExec_jump _ keys rand x y n _

/-- One executed Call instruction 2NNN pushes the post-fetch program counter
(the instruction address plus 2) and jumps to NNN. -/
lemma exec_call (e : Emulator) (keys : Nat → Bool) (rand x y n : Nat)
    (hx : x < 16) (hy : y < 16) (hn : n < 16)
    (h1 : memGet e.memory e.program_counter = some (16 * 2 + x))
    (h2 : memGet e.memory (e.program_counter + 1) = some (16 * y + n))
    (hst : e.stack_top < MAX_STACK_SIZE) :
    Emulator.execute e keys rand =
      some { e with
        program_counter := x * 256 + y * 16 + n,
        stack := Function.update e.stack ⟨e.stack_top, hst⟩ (e.program_counter + 2),
        stack_top := e.stack_top + 1 } := by
  have hpc : e.program_counter < 4096 := memGet_lt h1
  rw [execute_eq e keys rand _ _ h1 h2]
  rw [show (16 * 2 + x) / 16 = 2 by omega, show (16 * 2 + x) % 16 = x by omega,
    show (16 * y + n) / 16 = y by omega, show (16 * y + n) % 16 = n by omega]
  rw [decodeExec_call { e with program_counter := e.program_counter + INSTRUCTION_LENGTH }
    keys rand x y n (16 * y + n) hst]
  show some { e with
      program_counter := x * 256 + y * 16 + n,
      stack := Function.update e.stack ⟨e.stack_top, hst⟩
        ((e.program_counter + INSTRUCTION_LENGTH) % 65536),
      stack_top := e.stack_top + 1 } = _
  rw [show (e.program_counter + INSTRUCTION_LENGTH) % 65536 = e.program_counter + 2 by
    show (e.program_counter + 2) % 65536 = e.program_counter + 2
    exact Nat.mod_eq_of_lt (by omega)]

/-- One executed Return instruction 00EE pops the stack into the program
counter. -/
lemma exec_ret (e : Emulator) (keys : Nat → Bool) (rand : Nat)
    (h1 : memGet e.memory e.program_counter = some 0x00)
    (h2 : memGet e.memory (e.program_counter + 1) = some 0xEE)
    (hst0 : ¬ e.stack_top = 0) (hst : e.stack_top - 1 < MAX_STACK_SIZE) :
    Emulator.execute e keys rand =
      some { e with
        program_counter := e.stack ⟨e.stack_top - 1, hst⟩,
        stack_top := e.stack_top - 1 } := by
  rw [execute_eq e keys rand _ _ h1 h2]
  exact decodeExec_ret { e with program_counter := e.program_counter + INSTRUCTION_LENGTH }
    keys rand 238 hst0 hst

/-- Claim C7: Jump (1NNN) sets the program counter to exactly NNN; Call (2NNN)
pushes the post-fetch program counter (the instruction address plus 2) onto
the stack before jumping to NNN; Return (00EE) pops the stack into the
program counter; and a Call immediately followed by the Return it reaches
restores the program counter to exactly the pushed value (the address after
the call) with the stack-top index back where it was. -/
theorem c7_jump_call_return :
    (∀ (e : Emulator) (keys : Nat → Bool) (rand x y n : Nat), x < 16 → y < 16 → n < 16 →
      memGet e.memory e.program_counter = some (16 * 1 + x) →
      memGet e.memory (e.program_counter + 1) = some (16 * y + n) →
      Emulator.execute e keys rand =
        some { e with program_counter := x * 256 + y * 16 + n }) ∧
    (∀ (e : Emulator) (keys : Nat → Bool) (rand x y n : Nat), x < 16 → y < 16 → n < 16 →
      memGet e.memory e.program_counter = some (16 * 2 + x) →
      memGet e.memory (e.program_counter + 1) = some (16 * y + n) →
      ∀ hst : e.stack_top < MAX_STACK_SIZE,
      Emulator.execute e keys rand =
        some { e with
          program_counter := x * 256 + y * 16 + n,
          stack := Function.update e.stack ⟨e.stack_top, hst⟩ (e.program_counter + 2),
          stack_top := e.stack_top + 1 }) ∧
    (∀ (e : Emulator) (keys : Nat → Bool) (rand : Nat),
      memGet e.memory e.program_counter = some 0x00 →
      memGet e.memory (e.program_counter + 1) = some 0xEE →
      ∀ (hst0 : ¬ e.stack_top = 0) (hst : e.stack_top - 1 < MAX_STACK_SIZE),
      Emulator.execute e keys rand =
        some { e with
          program_counter := e.stack ⟨e.stack_top - 1, hst⟩,
          stack_top := e.stack_top - 1 }) ∧
    (∀ (e : Emulator) (keys : Nat → Bool) (rand x y n : Nat), x < 16 → y < 16 → n < 16 →
      memGet e.memory e.program_counter = some (16 * 2 + x) →
      memGet e.memory (e.program_counter + 1) = some (16 * y + n) →
      memGet e.memory (x * 256 + y * 16 + n) = some 0x00 →
      memGet e.memory (x * 256 + y * 16 + n + 1) = some 0xEE →
      ∀ hst : e.stack_top < MAX_STACK_SIZE,
      ∃ e2, (Emulator.execute e keys rand).bind
          (fun e1 => Emulator.execute e1 keys rand) = some e2 ∧
        e2.program_counter = e.program_counter + 2 ∧
        e2.stack_top = e.stack_top) := by
  refine ⟨exec_jump, exec_call, exec_ret, ?_⟩
  intro e keys rand x y n hx hy hn h1 h2 h3 h4 hst
  have hcall := exec_call e keys rand x y n hx hy hn h1 h2 hst
  have hexec2 := exec_ret { e with
      program_counter := x * 256 + y * 16 + n,
      stack := Function.update e.stack ⟨e.stack_top, hst⟩ (e.program_counter + 2),
      stack_top := e.stack_top + 1 } keys rand h3 h4 (Nat.succ_ne_zero _) hst
  have hbind : (Emulator.execute e keys rand).bind (fun e1 => Emulator.execute e1 keys rand) =
      Emulator.execute { e with
        program_counter := x * 256 + y * 16 + n,
        stack := Function.update e.stack ⟨e.stack_top, hst⟩ (e.program_counter + 2),
        stack_top := e.stack_top + 1 } keys rand := by
    rw [hcall]
    rfl
  rw [hbind, hexec2]
  refine ⟨_, rfl, ?_, ?_⟩
  · show Function.update e.stack ⟨e.stack_top, hst⟩ (e.program_counter + 2)
        ⟨e.stack_top, hst⟩ = e.program_counter + 2
    exact Function.update_same _ _ _
  · show e.stack_top + 1 - 1 = e.stack_top
    omega

/-- A state whose next instruction is the jump 0x1234. -/
def c7JumpEmu : Emulator :=
  (zeroEmu.pokeMem ⟨0x200, by decide⟩ 0x12).pokeMem ⟨0x201, by decide⟩ 0x34

/-- A state whose next instruction is the call 0x2345 and whose memory holds
the return 0x00EE at 0x345. -/
def c7CallEmu : Emulator :=
  (((zeroEmu.pokeMem ⟨0x200, by decide⟩ 0x23).pokeMem ⟨0x201, by decide⟩ 0x45).pokeMem
    ⟨0x345, by decide⟩ 0x00).pokeMem ⟨0x346, by decide⟩ 0xEE

/-- A state whose next instruction is the return 0x00EE with one stack entry. -/
def c7RetEmu : Emulator :=
  { (zeroEmu.pokeMem ⟨0x200, by decide⟩ 0x00).pokeMem ⟨0x201, by decide⟩ 0xEE with
    stack_top := 1 }

/-- Claim C7 witness: the theorem applied to the concrete jump, call and
return fixtures. -/
theorem c7_jump_call_return_witness :
    Emulator.execute c7JumpEmu (fun _ => false) 0 =
      some { c7JumpEmu with program_counter := 2 * 256 + 3 * 16 + 4 } ∧
    Emulator.execute c7CallEmu (fun _ => false) 0 =
      some { c7CallEmu with
        program_counter := 3 * 256 + 4 * 16 + 5,
        stack := Function.update c7CallEmu.stack ⟨c7CallEmu.stack_top, by decide⟩
          (c7CallEmu.program_counter + 2),
        stack_top := c7CallEmu.stack_top + 1 } ∧
    Emulator.execute c7RetEmu (fun _ => false) 0 =
      some { c7RetEmu with
        program_counter := c7RetEmu.stack ⟨c7RetEmu.stack_top - 1, by decide⟩,
        stack_top := c7RetEmu.stack_top - 1 } ∧
    (∃ e2, (Emulator.execute c7CallEmu (fun _ => false) 0).bind
        (fun e1 => Emulator.execute e1 (fun _ => false) 0) = some e2 ∧
      e2.program_counter = c7CallEmu.program_counter + 2 ∧
      e2.stack_top = c7CallEmu.stack_top) :=
  ⟨c7_jump_call_return.1 c7JumpEmu (fun _ => false) 0 2 3 4 (by decide) (by decide) (by decide)
      (by decide) (by decide),
   c7_jump_call_return.2.1 c7CallEmu (fun _ => false) 0 3 4 5 (by decide) (by decide)
      (by decide) (by decide) (by decide) (by decide),
   c7_jump_call_return.2.2.1 c7RetEmu (fun _ => false) 0 (by decide) (by decide) (by decide)
      (by decide),
   c7_jump_call_return.2.2.2 c7CallEmu (fun _ => false) 0 3 4 5 (by decide) (by decide)
      (by decide) (by decide) (by decide) (by decide) (by decide) (by decide)⟩

/- Claim C9. -/

/-- Dispatch of opcode FX0A when the lowest held key is k: VX is set to k. -/
lemma decodeExec_getkey (e : Emulator) (keys : Nat → Bool) (rand x nn k : Nat)
    (hx : x < 16) (hk16 : k < 16) (hk : keys k = true)
    (hmin : ∀ j, j < k → keys j = false) :
    decodeExec e keys rand 15 x 0 10 nn =
      some { e with registers := Function.update e.registers ⟨x, hx⟩ k } := by
  show (match findKeyLoop keys 0 16 with
      | some key => Emulator.set_reg e x key
      | none => some { e with program_counter := e.program_counter - INSTRUCTION_LENGTH }) =
    some { e with registers := Function.update e.registers ⟨x, hx⟩ k }
  rw [findKeyLoop_eq keys k hk hmin 16 0 (Nat.zero_le k) (by omega)]
  show Emulator.set_reg e x k = some { e with registers := Function.update e.registers ⟨x, hx⟩ k }
  unfold Emulator.set_reg
  rw [dif_neg (show ¬ NUM_REGISTERS ≤ x from not_le.mpr hx)]

/-- Claim C9: executing FX0A while at least one key is held sets VX to the
lowest-numbered held key and advances the program counter normally by 2 (no
rewind). -/
theorem c9_blocking_key_wait (e : Emulator) (keys : Nat → Bool) (rand x k : Nat)
    (hx : x < 16) (hk16 : k < 16) (hk : keys k = true)
    (hmin : ∀ j, j < k → keys j = false)
    (h1 : memGet e.memory e.program_counter = some (16 * 15 + x))
    (h2 : memGet e.memory (e.program_counter + 1) = some 0x0A) :
    Emulator.execute e keys rand =
      some { e with
        program_counter := e.program_counter + 2,
        registers := Function.update e.registers ⟨x, hx⟩ k } := by
  rw [execute_eq e keys rand _ _ h1 h2]
  rw [show (16 * 15 + x) / 16 = 15 by omega, show (16 * 15 + x) % 16 = x by omega]
  exact decodeExec_getkey _ keys rand x _ k hx hk16 hk hmin

/-- A state whose next instruction is the blocking key wait 0xF50A. -/
def c9Emu : Emulator :=
  (zeroEmu.pokeMem ⟨0x200, by decide⟩ 0xF5).pokeMem ⟨0x201, by decide⟩ 0x0A

/-- Claim C9 witness: with keys 3 and up held, FX0A with X = 5 stores key 3 in
V5 and the program counter moves past the instruction. -/
theorem c9_blocking_key_wait_witness :
    Emulator.execute c9Emu (fun j => decide (3 ≤ j)) 0 =
      some { c9Emu with
        program_counter := c9Emu.program_counter + 2,
        registers := Function.update c9Emu.registers ⟨5, by decide⟩ 3 } :=
  c9_blocking_key_wait c9Emu (fun j => decide (3 ≤ j)) 0 5 3 (by decide) (by decide)
    (by decide) (by intro j hj; interval_cases j <;> decide) (by decide) (by decide)

/- Claims C1, C3, C4: concrete executions exhibiting the code bugs. -/

/-- A state with an all-clear display, VF = 1, index register 0x200 (so the
sprite byte is 0xD0, the first byte of the instruction itself) and next
instruction 0xD011: draw a 1-row sprite at (V0, V1) = (0, 0). -/
def c1Emu : Emulator :=
  { ((zeroEmu.pokeMem ⟨0x200, by decide⟩ 0xD0).pokeMem ⟨0x201, by decide⟩ 0x11).pokeReg
      ⟨15, by decide⟩ 1 with
    index_register := 0x200 }

/-- Claim C1: before the draw the display is all clear and VF is 1; the draw
turns pixels on only (no XOR turns a pixel off), so per the claim VF must end
as 0; but the code leaves VF at 1 because draw_sprite never writes 0 to VF. -/
theorem c1_draw_collision_flag_code_bug :
    (∀ p, c1Emu.display.data p = false) ∧
    c1Emu.registers ⟨15, by decide⟩ = 1 ∧
    (Emulator.execute c1Emu (fun _ => false) 0).map
      (fun e2 => e2.registers ⟨15, by decide⟩) = some 1 := by
  refine ⟨fun p => rfl, rfl, ?_⟩
  decide

/-- A state with V1 = 0x80 and next instruction 0x801E: shift left, with the
default configuration taking the source from VY. -/
def c3Emu : Emulator :=
  ((zeroEmu.pokeMem ⟨0x200, by decide⟩ 0x80).pokeMem ⟨0x201, by decide⟩ 0x1E).pokeReg
    ⟨1, by decide⟩ 0x80

/-- Claim C3: executing 8XYE on source value 0x80 stores the shifted value 0
in VX, but sets VF to 128 (the masked high bit, not shifted down), whereas
the claim requires VF to be the value of the bit shifted out, 1. -/
theorem c3_shift_flag_code_bug :
    c3Emu.config.shift_use_vy = true ∧
    c3Emu.registers ⟨1, by decide⟩ = 0x80 ∧
    (Emulator.execute c3Emu (fun _ => false) 0).map
      (fun e2 => (e2.registers ⟨0, by decide⟩, e2.registers ⟨15, by decide⟩)) =
      some (0, 128) := by
  decide

/-- A state with V0 = 7 and next instruction 0xF029: set the index register to
the font glyph of the digit in V0. -/
def c4Emu : Emulator :=
  ((zeroEmu.pokeMem ⟨0x200, by decide⟩ 0xF0).pokeMem ⟨0x201, by decide⟩ 0x29).pokeReg
    ⟨0, by decide⟩ 7

/-- Claim C4: V0 holds 7, so the claim requires the index register to become
0x50 + 5 * 7 = 0x73; the code instead uses the register NUMBER X = 0 from the
opcode, producing 0x50. -/
theorem c4_font_index_code_bug :
    c4Emu.registers ⟨0, by decide⟩ = 7 ∧
    (Emulator.execute c4Emu (fun _ => false) 0).map Emulator.index_register = some 0x50 ∧
    (0x50 : Nat) ≠ FONT_START_POSITION + 5 * 7 := by
  decide

end Emul8rs
